import Mathlib

/-
Verification of the CloudFormation custom-resource handler in
AWS-TGW-att.py.  The script is a single linear orchestration of cloud
provider API calls; we embed it shallowly: every provider call is drawn
from an environment record of responses (a call either returns a value
or raises, modelled by Except Unit), and every embedded function returns
the list of provider calls it issued (its trace) together with its
Python return value.  The try/except blocks of the source, which catch
any exception, log it and return None, are mirrored by aborting the
traversal and returning none.
-/

namespace TgwAtt

/-- Python values that occur in the comparisons of this script: the
DestinationCidrBlock field of a route (a string) and the CIDR parameter
(a list of strings).  Python equality between a string and a list is
False; structural equality on this type agrees with Python equality on
this fragment. -/
inductive PyVal where
  | str (s : String)
  | strList (xs : List String)
deriving DecidableEq, Repr

/-- The space character, written by code point to keep literals simple. -/
def spaceChar : Char := Char.ofNat 32

/-- A VPC as returned by describe_vpcs: its id and the values of its
tags (the script only ever reads the Value field of a tag; a VPC whose
response lacks the Tags key behaves exactly like one with an empty tag
list, since the tag loop is then skipped). -/
structure Vpc where
  vpcId : String
  tags : List String
deriving DecidableEq, Repr

/-- A subnet as returned by describe_subnets: its id and availability
zone. -/
structure Subnet where
  subnetId : String
  az : String
deriving DecidableEq, Repr

/-- A route of a route table; dest is the DestinationCidrBlock field,
none when the route has no such key. -/
structure Route where
  dest : Option PyVal
deriving DecidableEq, Repr

/-- A route table as returned by describe_route_tables. -/
structure RouteTable where
  routeTableId : String
  routes : List Route
deriving DecidableEq, Repr

/-- One VPC metadata record built by get_vpc_metadata; Subnet and
Route_Tables are None when the corresponding helper swallowed an
exception. -/
structure Metadata where
  vpc : String
  subnet : Option (List String)
  routeTables : Option (List String)
deriving DecidableEq, Repr

/-- Every provider call the script can issue, recorded in traces.
send is the HTTP PUT of the callback sender. -/
inductive Call where
  | describeVpcs
  | describeSubnetsByVpc (vpc : String) (tagValue : String)
  | describeSubnetById (subnet : String)
  | describeRouteTablesByVpc (vpc : String) (tagValue : String)
  | describeRouteTablesByIds (ids : List String)
  | createTgwAttachment (tgw : String) (vpc : String) (subnets : List String)
  | createRoute (routeTable : String) (block : String) (tgw : String)
  | deleteRoute (dest : PyVal) (routeTable : String)
  | listRoles
  | createServiceLinkedRole
  | sleep (seconds : Nat)
  | send (status : String)
deriving DecidableEq, Repr

/-- The provider environment: the response of each API call the script
makes.  Except.error models the call raising.  roles is the list of
role names returned by iam list_roles. -/
structure Env where
  describeVpcs : Except Unit (List Vpc)
  describeSubnetsByVpc : String → String → Except Unit (List Subnet)
  describeSubnetById : String → Except Unit (List Subnet)
  describeRouteTablesByVpc : String → String → Except Unit (List RouteTable)
  describeRouteTablesByIds : List String → Except Unit (List RouteTable)
  createTgwAttachment : String → String → List String → Except Unit Unit
  createRoute : String → String → String → Except Unit Unit
  deleteRoute : PyVal → String → Except Unit Unit
  roles : List String

/-- Splitting a character list on commas, keeping empty pieces, exactly
as the Python str.split(",") does; acc holds the reversed current
piece. -/
def splitCommaAux : List Char → List Char → List (List Char)
  | [], acc => [acc.reverse]
  | c :: rest, acc =>
    if c = ',' then acc.reverse :: splitCommaAux rest []
    else splitCommaAux rest (c :: acc)

/-- Python str.split(",") on a Lean string. -/
def pySplitComma (s : String) : List String :=
  (splitCommaAux s.data []).map String.mk

/-- Python str.replace(" ", ""): every space character is removed. -/
def removeSpaces (s : String) : String :=
  String.mk (s.data.filter (fun c => c != spaceChar))

/-- The tag-list parsing of get_vpc_metadata lines 131-132: strip all
spaces from the whole parameter, then split on commas. -/
def parse_vpc_tags (s : String) : List String :=
  pySplitComma (removeSpaces s)

/-- The accumulation step of the availability-zone deduplication of
get_subnets lines 189-193: the mapping is a list of pairs (zone,
subnet id); a subnet is appended only when no pair already carries its
zone (the Python membership test on each one-key dict checks its key). -/
def az_step (m : List (String × String)) (sub : Subnet) : List (String × String) :=
  if m.any (fun p => p.1 == sub.az) then m else m ++ [(sub.az, sub.subnetId)]

/-- The per-subnet-id loop of get_subnets lines 179-193: describe each
subnet id in turn and fold its records into the zone mapping; a raising
describe aborts with none (the except of get_subnets). -/
def get_subnets_loop (env : Env) :
    List String → List (String × String) → List Call × Option (List (String × String))
  | [], acc => ([], some acc)
  | sid :: rest, acc =>
    match env.describeSubnetById sid with
    | Except.error _ => ([Call.describeSubnetById sid], none)
    | Except.ok subs =>
      let r := get_subnets_loop env rest (List.foldl az_step acc subs)
      (Call.describeSubnetById sid :: r.1, r.2)

/-- get_subnets lines 159-205: list the subnets of the VPC tagged
tgw-attach, re-describe each one, deduplicate by availability zone, and
return the selected subnet ids; any raising call yields None. -/
def get_subnets (env : Env) (returned_vpc : String) (vpc_tag : String) :
    List Call × Option (List String) :=
  match env.describeSubnetsByVpc returned_vpc vpc_tag with
  | Except.error _ => ([Call.describeSubnetsByVpc returned_vpc vpc_tag], none)
  | Except.ok entries =>
    let r := get_subnets_loop env (entries.map Subnet.subnetId) []
    (Call.describeSubnetsByVpc returned_vpc vpc_tag :: r.1,
     r.2.map (fun m => m.map Prod.snd))

/-- The inner block loop of get_default_route_table lines 241-246: for
each CIDR block, test the route destination against the whole CIDR list
and delete with that block when equal; the Bool records whether the loop
completed without an exception. -/
def gdrt_blocks (env : Env) (cidr : List String) (d : PyVal) (rtbId : String) :
    List String → List Call × Bool
  | [] => ([], true)
  | block :: rest =>
    if d = PyVal.strList cidr then
      match env.deleteRoute (PyVal.str block) rtbId with
      | Except.error _ => ([Call.deleteRoute (PyVal.str block) rtbId], false)
      | Except.ok _ =>
        let r := gdrt_blocks env cidr d rtbId rest
        (Call.deleteRoute (PyVal.str block) rtbId :: r.1, r.2)
    else gdrt_blocks env cidr d rtbId rest

/-- The route loop of get_default_route_table lines 239-246: routes
without a DestinationCidrBlock key are skipped. -/
def gdrt_routes (env : Env) (cidr : List String) (rtbId : String) :
    List Route → List Call × Bool
  | [] => ([], true)
  | route :: rest =>
    match route.dest with
    | none => gdrt_routes env cidr rtbId rest
    | some d =>
      let r1 := gdrt_blocks env cidr d rtbId cidr
      if r1.2 then
        let r2 := gdrt_routes env cidr rtbId rest
        (r1.1 ++ r2.1, r2.2)
      else (r1.1, false)

/-- The route-table loop of get_default_route_table lines 231-246: each
table id is re-described alone and only the first element of the
response is read (an empty response raises IndexError at index 0, which
the except catches). -/
def gdrt_tables (env : Env) (cidr : List String) : List String → List Call × Bool
  | [] => ([], true)
  | rtb :: rest =>
    match env.describeRouteTablesByIds [rtb] with
    | Except.error _ => ([Call.describeRouteTablesByIds [rtb]], false)
    | Except.ok rts =>
      match rts with
      | [] => ([Call.describeRouteTablesByIds [rtb]], false)
      | first :: _ =>
        let r1 := gdrt_routes env cidr rtb first.routes
        if r1.2 then
          let r2 := gdrt_tables env cidr rest
          (Call.describeRouteTablesByIds [rtb] :: r1.1 ++ r2.1, r2.2)
        else (Call.describeRouteTablesByIds [rtb] :: r1.1, false)

/-- get_default_route_table lines 208-252: list the non-main tgw-attach
tagged route tables of the VPC, walk their routes deleting any whose
destination equals the CIDR list, and return the table ids; any raising
call yields None. -/
def get_default_route_table (env : Env) (returned_vpc : String) (cidr : List String)
    (vpc_tag : String) : List Call × Option (List String) :=
  match env.describeRouteTablesByVpc returned_vpc vpc_tag with
  | Except.error _ => ([Call.describeRouteTablesByVpc returned_vpc vpc_tag], none)
  | Except.ok rts =>
    let route_table_ids := rts.map RouteTable.routeTableId
    let r := gdrt_tables env cidr route_table_ids
    (Call.describeRouteTablesByVpc returned_vpc vpc_tag :: r.1,
     if r.2 then some route_table_ids else none)

/-- The tag-value loop of get_vpc_metadata lines 141-150: one metadata
record is appended for every tag value of the VPC equal to the searched
tag (the loop has no break), each time re-running subnet and route-table
discovery. -/
def gvm_vpc_tags (env : Env) (cidr : List String) (tag : String) (vpcId : String) :
    List String → List Call × List Metadata
  | [] => ([], [])
  | tv :: rest =>
    if tv == tag then
      let r1 := get_subnets env vpcId "True"
      let r2 := get_default_route_table env vpcId cidr "True"
      let r3 := gvm_vpc_tags env cidr tag vpcId rest
      (r1.1 ++ r2.1 ++ r3.1, { vpc := vpcId, subnet := r1.2, routeTables := r2.2 } :: r3.2)
    else gvm_vpc_tags env cidr tag vpcId rest

/-- The VPC loop of get_vpc_metadata lines 139-150. -/
def gvm_vpcs (env : Env) (cidr : List String) (tag : String) :
    List Vpc → List Call × List Metadata
  | [] => ([], [])
  | vpc :: rest =>
    let r1 := gvm_vpc_tags env cidr tag vpc.vpcId vpc.tags
    let r2 := gvm_vpcs env cidr tag rest
    (r1.1 ++ r2.1, r1.2 ++ r2.2)

/-- The tag loop of get_vpc_metadata lines 136-154: describe_vpcs is
called once per tag; a raising call is caught and the whole function
returns None. -/
def gvm_loop (env : Env) (cidr : List String) :
    List String → List Call × Option (List Metadata)
  | [] => ([], some [])
  | tag :: rest =>
    match env.describeVpcs with
    | Except.error _ => ([Call.describeVpcs], none)
    | Except.ok vpcs =>
      let r1 := gvm_vpcs env cidr tag vpcs
      let r2 := gvm_loop env cidr rest
      match r2.2 with
      | none => (Call.describeVpcs :: r1.1 ++ r2.1, none)
      | some ms => (Call.describeVpcs :: r1.1 ++ r2.1, some (r1.2 ++ ms))

/-- get_vpc_metadata lines 130-156: strip spaces from the tag
parameter, split on commas, and run the tag loop; account and region
are accepted and ignored exactly as in the source. -/
def get_vpc_metadata (env : Env) (account region : String) (vpc_tags : String)
    (cidr : List String) : List Call × Option (List Metadata) :=
  gvm_loop env cidr (parse_vpc_tags vpc_tags)

/-- The entry loop of create_transit_gateways lines 112-125: an entry
whose Subnet value is truthy (a non-empty list) is attached; a raising
attachment is caught and aborts the whole function (return None); falsy
entries are only printed.  The Bool records completion, on which the
trailing sleep of line 127 depends. -/
def ctg_loop (env : Env) (tgw : String) : List Metadata → List Call × Bool
  | [] => ([], true)
  | e :: rest =>
    match e.subnet with
    | some (s :: ss) =>
      match env.createTgwAttachment tgw e.vpc (s :: ss) with
      | Except.error _ => ([Call.createTgwAttachment tgw e.vpc (s :: ss)], false)
      | Except.ok _ =>
        let r := ctg_loop env tgw rest
        (Call.createTgwAttachment tgw e.vpc (s :: ss) :: r.1, r.2)
    | _ => ctg_loop env tgw rest

/-- create_transit_gateways lines 111-127: run the entry loop, then
sleep 90 seconds, the sleep being reached only when the loop was not
aborted by an exception. -/
def create_transit_gateways (env : Env) (vpc_metadata : List Metadata) (tgw : String) :
    List Call :=
  let r := ctg_loop env tgw vpc_metadata
  if r.2 then r.1 ++ [Call.sleep 90] else r.1

/-- The route-deletion loop of create_vpc_route_to_tgw lines 90-96: a
route whose destination equals the CIDR list is deleted, passing the
whole list as the DestinationCidrBlock argument. -/
def cvr_deletes (env : Env) (cidr : List String) (rtbId : String) :
    List Route → List Call × Bool
  | [] => ([], true)
  | route :: rest =>
    match route.dest with
    | none => cvr_deletes env cidr rtbId rest
    | some d =>
      if d = PyVal.strList cidr then
        match env.deleteRoute (PyVal.strList cidr) rtbId with
        | Except.error _ => ([Call.deleteRoute (PyVal.strList cidr) rtbId], false)
        | Except.ok _ =>
          let r := cvr_deletes env cidr rtbId rest
          (Call.deleteRoute (PyVal.strList cidr) rtbId :: r.1, r.2)
      else cvr_deletes env cidr rtbId rest

/-- The route-creation loop of create_vpc_route_to_tgw lines 97-104:
one create_route per CIDR block, in list order, targeting the transit
gateway; a raising create is caught and aborts the whole function. -/
def cvr_creates (env : Env) (rtbId : String) (tgw : String) :
    List String → List Call × Bool
  | [] => ([], true)
  | block :: rest =>
    match env.createRoute rtbId block tgw with
    | Except.error _ => ([Call.createRoute rtbId block tgw], false)
    | Except.ok _ =>
      let r := cvr_creates env rtbId tgw rest
      (Call.createRoute rtbId block tgw :: r.1, r.2)

/-- The route-table loop of create_vpc_route_to_tgw lines 89-104:
deletions then creations per table. -/
def cvr_tables (env : Env) (cidr : List String) (tgw : String) :
    List RouteTable → List Call × Bool
  | [] => ([], true)
  | rt :: rest =>
    let r1 := cvr_deletes env cidr rt.routeTableId rt.routes
    if r1.2 then
      let r2 := cvr_creates env rt.routeTableId tgw cidr
      if r2.2 then
        let r3 := cvr_tables env cidr tgw rest
        (r1.1 ++ r2.1 ++ r3.1, r3.2)
      else (r1.1 ++ r2.1, false)
    else (r1.1, false)

/-- The entry loop of create_vpc_route_to_tgw lines 80-108: entries with
a truthy Subnet have their route tables described and rewritten; any
exception (including boto3 rejecting a None Route_Tables parameter
before any call is made) is caught and aborts the whole function. -/
def cvr_loop (env : Env) (tgw : String) (cidr : List String) :
    List Metadata → List Call × Bool
  | [] => ([], true)
  | e :: rest =>
    match e.subnet with
    | some (s :: ss) =>
      match e.routeTables with
      | none => ([], false)
      | some ids =>
        match env.describeRouteTablesByIds ids with
        | Except.error _ => ([Call.describeRouteTablesByIds ids], false)
        | Except.ok rts =>
          let r1 := cvr_tables env cidr tgw rts
          if r1.2 then
            let r2 := cvr_loop env tgw cidr rest
            (Call.describeRouteTablesByIds ids :: r1.1 ++ r2.1, r2.2)
          else (Call.describeRouteTablesByIds ids :: r1.1, false)
    | _ => cvr_loop env tgw cidr rest

/-- create_vpc_route_to_tgw lines 77-108. -/
def create_vpc_route_to_tgw (env : Env) (vpc_metadata : List Metadata) (tgw : String)
    (cidr : List String) : List Call :=
  (cvr_loop env tgw cidr vpc_metadata).1

/-- The role name tested by create_service_link_role line 262. -/
def tgwRoleName : String := "AWSServiceRoleForVPCTransitGateway"

/-- create_service_link_role lines 255-271: list the roles, set a flag
when one bears the transit-gateway role name, and create the
service-linked role only when the flag stayed false. -/
def create_service_link_role (roles : List String) : List Call :=
  let service_role_exists := roles.any (fun r => r == tgwRoleName)
  if service_role_exists then [Call.listRoles]
  else [Call.listRoles, Call.createServiceLinkedRole]

/-- Provider-side effect of one run of create_service_link_role: when
the create call was issued, the listed roles afterwards also contain the
transit-gateway role name (this models the IAM service, not the script). -/
def roles_after_create_service_link_role (roles : List String) : List String :=
  if roles.any (fun r => r == tgwRoleName) then roles else roles ++ [tgwRoleName]

/-- The lifecycle event; only the fields the handler reads are kept
(the callback fields are consumed inside send, which we model as a
single Call.send with the chosen status). -/
structure Event where
  requestType : String
  account : String
  region : String
  vpcTagsStr : String
  cidrStr : String
  tgwId : String
deriving DecidableEq, Repr

/-- lambda_handler lines 41-74: parse the CIDR parameter, then branch on
RequestType.  Create and Update run role ensure, discovery, attachment
and route rewrite, then send SUCCESS; every other request type first
sends FAILED, after which a second independent test sends SUCCESS for
Delete.  When discovery returned None, line 112 iterates over None and
the handler raises an uncaught TypeError before any callback: the
result component is then none. -/
def lambda_handler (env : Env) (event : Event) : List Call × Option Unit :=
  let cidr := pySplitComma event.cidrStr
  if event.requestType = "Update" ∨ event.requestType = "Create" then
    let tr0 := create_service_link_role env.roles
    let r1 := get_vpc_metadata env event.account event.region event.vpcTagsStr cidr
    match r1.2 with
    | none => (tr0 ++ r1.1, none)
    | some metadata =>
      let tr2 := create_transit_gateways env metadata event.tgwId
      let tr3 := create_vpc_route_to_tgw env metadata event.tgwId cidr
      (tr0 ++ r1.1 ++ tr2 ++ tr3 ++ [Call.send "SUCCESS"], some ())
  else
    if event.requestType = "Delete" then
      ([Call.send "FAILED", Call.send "SUCCESS"], some ())
    else
      ([Call.send "FAILED"], some ())

/-- True of the deleteRoute calls of a trace. -/
def isDeleteRouteCall : Call → Bool
  | Call.deleteRoute _ _ => true
  | _ => false

/-- True of the createRoute calls of a trace that target the given
route table. -/
def isCreateRouteFor (rtId : String) : Call → Bool
  | Call.createRoute r _ _ => r == rtId
  | _ => false

/-- The createRoute calls of a trace that target the given route
table, in trace order. -/
def createRouteCallsFor (rtId : String) (tr : List Call) : List Call :=
  tr.filter (isCreateRouteFor rtId)

/-- Value of a describe-subnets response, empty when the call raised. -/
def okSubnets : Except Unit (List Subnet) → List Subnet
  | Except.ok l => l
  | Except.error _ => []

/-- Value of a describe-route-tables response, empty when the call
raised. -/
def okTables : Except Unit (List RouteTable) → List RouteTable
  | Except.ok l => l
  | Except.error _ => []

/-- The subnet records that get_subnets walks, in provider listing
order: the records of the per-id describes, taken in the order of the
initial listing. -/
def seen_subnets (env : Env) (sids : List String) : List Subnet :=
  (sids.map (fun sid => okSubnets (env.describeSubnetById sid))).flatten

/-- The id of the first subnet of the listing that lies in the given
availability zone. -/
def firstAz (seen : List Subnet) (azName : String) : Option String :=
  (seen.find? (fun sub => sub.az == azName)).map Subnet.subnetId

/-- The zone-to-subnet mapping that get_subnets accumulates over the
subnet records it walks. -/
def selected_mapping (env : Env) (entries : List Subnet) : List (String × String) :=
  List.foldl az_step [] (seen_subnets env (entries.map Subnet.subnetId))

/-- The route tables that create_vpc_route_to_tgw walks for a metadata
list: the describe responses of the entries with a truthy subnet list,
in entry order. -/
def processed_tables (env : Env) (metadata : List Metadata) : List RouteTable :=
  (metadata.map (fun e =>
    match e.subnet, e.routeTables with
    | some (_ :: _), some ids => okTables (env.describeRouteTablesByIds ids)
    | _, _ => [])).flatten

/-- The createRoute calls targeting rtId that a walk of the given route
tables issues: one per CIDR block, in list order, for each occurrence
of the table. -/
def table_route_calls (rtId tgw : String) (cidr : List String) (rts : List RouteTable) :
    List Call :=
  (rts.map (fun rt =>
    if rt.routeTableId == rtId then cidr.map (fun b => Call.createRoute rt.routeTableId b tgw)
    else [])).flatten

/-- An environment in which every call succeeds with an empty result
and no roles exist. -/
def baseEnv : Env where
  describeVpcs := Except.ok []
  describeSubnetsByVpc := fun _ _ => Except.ok []
  describeSubnetById := fun _ => Except.ok []
  describeRouteTablesByVpc := fun _ _ => Except.ok []
  describeRouteTablesByIds := fun _ => Except.ok []
  createTgwAttachment := fun _ _ _ => Except.ok ()
  createRoute := fun _ _ _ => Except.ok ()
  deleteRoute := fun _ _ => Except.ok ()
  roles := []

/-- An environment whose describe_vpcs call raises; the service-linked
role already exists. -/
def envFail : Env :=
  { baseEnv with describeVpcs := Except.error (), roles := [tgwRoleName] }

/-- A concrete Create event. -/
def evCreate : Event where
  requestType := "Create"
  account := "acct"
  region := "reg"
  vpcTagsStr := "a"
  cidrStr := "10.0.0.0/16"
  tgwId := "tgw-1"

/-- A concrete event of unknown request type. -/
def evBogus : Event where
  requestType := "Bogus"
  account := "acct"
  region := "reg"
  vpcTagsStr := "a"
  cidrStr := "10.0.0.0/16"
  tgwId := "tgw-1"

/-- A VPC that carries the same tag value twice. -/
def vpcTwice : Vpc where
  vpcId := "vpc-1"
  tags := ["a", "a"]

/-- An environment whose single VPC carries the same tag value twice. -/
def env5 : Env := { baseEnv with describeVpcs := Except.ok [vpcTwice] }

/-- Two metadata entries, each with one subnet and one route table. -/
def mdA : List Metadata :=
  [{ vpc := "vpc-1", subnet := some ["s1"], routeTables := some ["rtb-1"] },
   { vpc := "vpc-2", subnet := some ["s2"], routeTables := some ["rtb-2"] }]

/-- An environment whose attachment call always raises. -/
def envA : Env := { baseEnv with createTgwAttachment := fun _ _ _ => Except.error () }

/-- An environment that echoes requested route-table ids back as empty
tables and whose create_route call always raises. -/
def envB : Env :=
  { baseEnv with
    describeRouteTablesByIds :=
      fun ids => Except.ok (ids.map fun i => { routeTableId := i, routes := [] }),
    createRoute := fun _ _ _ => Except.error () }

/-- Three subnets, the first two sharing an availability zone. -/
def subs6 : List Subnet :=
  [{ subnetId := "s1", az := "az1" },
   { subnetId := "s2", az := "az1" },
   { subnetId := "s3", az := "az2" }]

/-- An environment listing subs6 for every VPC and answering per-id
describes from it. -/
def env6 : Env :=
  { baseEnv with
    describeSubnetsByVpc := fun _ _ => Except.ok subs6,
    describeSubnetById := fun sid => Except.ok (subs6.filter (fun s => s.subnetId == sid)) }

/-- An environment that echoes requested route-table ids back, each
table holding one route with a string destination; all mutation calls
succeed. -/
def env7 : Env :=
  { baseEnv with
    describeRouteTablesByIds := fun ids => Except.ok (ids.map fun i =>
      { routeTableId := i, routes := [{ dest := some (PyVal.str "0.0.0.0/0") }] }) }

/-- One metadata entry with one subnet and one route table. -/
def md7 : List Metadata :=
  [{ vpc := "vpc-1", subnet := some ["s1"], routeTables := some ["rtb-1"] }]

/-- The route table env7 answers for rtb-1. -/
def rt7 : RouteTable where
  routeTableId := "rtb-1"
  routes := [{ dest := some (PyVal.str "0.0.0.0/0") }]

/-- An environment whose describe-route-tables-by-ids call always
raises. -/
def envC : Env :=
  { baseEnv with describeRouteTablesByIds := fun _ => Except.error () }

/-- An environment whose attachment call raises for vpc-2 only. -/
def envA2 : Env :=
  { baseEnv with createTgwAttachment := fun _ v _ =>
      if v == "vpc-2" then Except.error () else Except.ok () }

/-- An environment that echoes requested route-table ids back as empty
tables and whose create_route call raises for rtb-2 only. -/
def envB2 : Env :=
  { baseEnv with
    describeRouteTablesByIds :=
      fun ids => Except.ok (ids.map fun i => { routeTableId := i, routes := [] }),
    createRoute := fun r _ _ => if r == "rtb-2" then Except.error () else Except.ok () }

/-- First metadata entry for the abort witness. -/
def mdE1 : Metadata := { vpc := "vpc-1", subnet := some ["s1"], routeTables := some ["rtb-1"] }

/-- Second metadata entry for the abort witness: its provider calls
fail under envA2 and envB2. -/
def mdE2 : Metadata := { vpc := "vpc-2", subnet := some ["s2"], routeTables := some ["rtb-2"] }

/-- Third metadata entry for the abort witness: it comes after the
failing entry and must not be processed. -/
def mdE3 : Metadata := { vpc := "vpc-3", subnet := some ["s3"], routeTables := some ["rtb-3"] }

/-- An environment whose single VPC carries only a tag value containing
a space. -/
def env10 : Env :=
  { baseEnv with describeVpcs := Except.ok [{ vpcId := "vpc-1", tags := ["x y"] }] }

/-- C1: the claim says a Delete event yields exactly one callback, with
status SUCCESS, and no provider mutations before it.  On the code, a
Delete event falls into the else branch of line 67 (Delete is not in
the Update or Create list), which sends FAILED, after which the
separate test of line 71 sends SUCCESS: two callbacks, FAILED first,
though indeed no provider calls are made.  This theorem evaluates the
handler on every Delete event and every environment. -/
theorem C1_delete_sends_failed_then_success (env : Env) (a r v c t : String) :
    lambda_handler env
      { requestType := "Delete", account := a, region := r,
        vpcTagsStr := v, cidrStr := c, tgwId := t } =
      ([Call.send "FAILED", Call.send "SUCCESS"], some ()) := by
  simp [lambda_handler]

/-- C2: the claim says the handler always terminates by sending a
callback, even when discovery returns None after a provider failure.
On the code, when describe_vpcs raises during a Create, get_vpc_metadata
returns None and line 112 iterates over None, raising an uncaught
TypeError before any callback: the handler result is none and the trace
holds no send call. -/
theorem C2_discovery_failure_raises_before_callback :
    lambda_handler envFail evCreate = ([Call.listRoles, Call.describeVpcs], none) := by
  decide

/-- C8: an event whose RequestType is neither Create, Update nor Delete
takes the else branch of line 67 only: the trace is exactly one FAILED
callback, so no discovery, attachment or route call is made. -/
theorem C8_unknown_request_type_failed_no_calls (env : Env) (event : Event)
    (h1 : event.requestType ≠ "Update") (h2 : event.requestType ≠ "Create")
    (h3 : event.requestType ≠ "Delete") :
    lambda_handler env event = ([Call.send "FAILED"], some ()) := by
  simp [lambda_handler, h1, h2, h3]

/-- C8 witness: a concrete event of unknown request type. -/
theorem C8_witness :
    lambda_handler baseEnv evBogus = ([Call.send "FAILED"], some ()) :=
  C8_unknown_request_type_failed_no_calls baseEnv evBogus (by decide) (by decide) (by decide)

/-- C9: create_service_link_role issues the create call exactly when no
listed role bears the transit-gateway role name, and a second run
against the role list left by a first run issues no create call. -/
theorem C9_service_role_check_then_create (roles : List String) :
    (Call.createServiceLinkedRole ∈ create_service_link_role roles ↔ tgwRoleName ∉ roles)
    ∧ Call.createServiceLinkedRole ∉
        create_service_link_role (roles_after_create_service_link_role roles) := by
  constructor
  · unfold create_service_link_role
    by_cases h : roles.any (fun r => r == tgwRoleName)
    · rw [if_pos h]
      simp only [List.any_eq_true, beq_iff_eq] at h
      obtain ⟨x, hx, rfl⟩ := h
      simp [hx]
    · rw [if_neg h]
      simp only [List.any_eq_true, beq_iff_eq] at h
      push_neg at h
      constructor
      · intro _ hmem
        exact absurd rfl (h tgwRoleName hmem)
      · intro _
        simp
  · unfold roles_after_create_service_link_role create_service_link_role
    by_cases h : roles.any (fun r => r == tgwRoleName)
    · rw [if_pos h, if_pos h]
      simp
    · rw [if_neg h]
      have h2 : (roles ++ [tgwRoleName]).any (fun r => r == tgwRoleName) = true := by
        simp
      rw [if_pos h2]
      simp

/-- C3 counterexample: the claim says a provider failure at one entry
does not prevent processing of the subsequent entries.  With two
well-formed entries and an attachment call that raises, the trace of
create_transit_gateways stops at the first attachment and holds no
call for the second VPC; likewise, with a raising create_route, the
trace of create_vpc_route_to_tgw holds no call for the second table. -/
theorem C3_counterexample :
    create_transit_gateways envA mdA "tgw-1" =
      [Call.createTgwAttachment "tgw-1" "vpc-1" ["s1"]]
    ∧ Call.createTgwAttachment "tgw-1" "vpc-2" ["s2"] ∉
        create_transit_gateways envA mdA "tgw-1"
    ∧ create_vpc_route_to_tgw envB mdA "tgw-1" ["10.0.0.0/16"] =
        [Call.describeRouteTablesByIds ["rtb-1"],
         Call.createRoute "rtb-1" "10.0.0.0/16" "tgw-1"]
    ∧ Call.createRoute "rtb-2" "10.0.0.0/16" "tgw-1" ∉
        create_vpc_route_to_tgw envB mdA "tgw-1" ["10.0.0.0/16"] := by
  refine ⟨by decide, by decide, by decide, by decide⟩

/-- Decomposition of the attachment loop over an appended list: when
the first part completes, its calls stand and the second part runs
after it; when the first part aborts, the second part contributes
nothing. -/
theorem ctg_loop_append (env : Env) (tgw : String) :
    ∀ l1 l2 : List Metadata,
      ctg_loop env tgw (l1 ++ l2)
        = if (ctg_loop env tgw l1).2
          then ((ctg_loop env tgw l1).1 ++ (ctg_loop env tgw l2).1, (ctg_loop env tgw l2).2)
          else ctg_loop env tgw l1 := by
  intro l1
  induction l1 with
  | nil => intro l2; simp [ctg_loop]
  | cons e es ih =>
    intro l2
    simp only [List.cons_append, ctg_loop]
    cases hs : e.subnet with
    | none => exact ih l2
    | some sl =>
      cases sl with
      | nil => exact ih l2
      | cons s ss =>
        dsimp only
        cases ha : env.createTgwAttachment tgw e.vpc (s :: ss) with
        | error u => simp
        | ok u =>
          dsimp only
          simp only [List.append_eq]
          rw [ih l2]
          by_cases hf : (ctg_loop env tgw es).2
          · simp [hf]
          · simp [hf]

/-- Decomposition of the route-reconciliation entry loop over an
appended list: when the first part completes, its calls stand and the
second part runs after it; when the first part aborts, the second part
contributes nothing. -/
theorem cvr_loop_append (env : Env) (tgw : String) (cidr : List String) :
    ∀ l1 l2 : List Metadata,
      cvr_loop env tgw cidr (l1 ++ l2)
        = if (cvr_loop env tgw cidr l1).2
          then ((cvr_loop env tgw cidr l1).1 ++ (cvr_loop env tgw cidr l2).1,
                (cvr_loop env tgw cidr l2).2)
          else cvr_loop env tgw cidr l1 := by
  intro l1
  induction l1 with
  | nil => intro l2; simp [cvr_loop]
  | cons e es ih =>
    intro l2
    simp only [List.cons_append, cvr_loop]
    cases hs : e.subnet with
    | none => exact ih l2
    | some sl =>
      cases sl with
      | nil => exact ih l2
      | cons s ss =>
        dsimp only
        cases hrt : e.routeTables with
        | none => simp
        | some ids =>
          dsimp only
          cases hd : env.describeRouteTablesByIds ids with
          | error u => simp
          | ok rts =>
            dsimp only
            by_cases hb : (cvr_tables env cidr tgw rts).2
            · simp only [hb, if_true]
              simp only [List.append_eq]
              rw [ih l2]
              by_cases hf : (cvr_loop env tgw cidr es).2
              · simp [hf]
              · simp [hf]
            · simp [hb]

/-- C3 amended: in both the attachment and the route-reconciliation
loops, a raising provider call while processing one entry, at any
position of the metadata list, aborts the whole function (the except
clauses return None): the calls already issued for the earlier entries
stand, the failing entry contributes its calls up to the raising one,
and no entry after the failing one is processed, whatever entries
follow.  A failing run of the single entry, of either loop, stands for
any of its raising calls. -/
theorem C3_failure_aborts_subsequent_entries (env1 env2 : Env) (tgw : String)
    (pre rest : List Metadata) (e : Metadata)
    (hpre : (ctg_loop env1 tgw pre).2 = true)
    (hfail : (ctg_loop env1 tgw [e]).2 = false)
    (cidr : List String) (pre2 rest2 : List Metadata) (e2 : Metadata)
    (hpre2 : (cvr_loop env2 tgw cidr pre2).2 = true)
    (hfail2 : (cvr_loop env2 tgw cidr [e2]).2 = false) :
    create_transit_gateways env1 (pre ++ e :: rest) tgw
      = (ctg_loop env1 tgw pre).1 ++ (ctg_loop env1 tgw [e]).1
    ∧ create_vpc_route_to_tgw env2 (pre2 ++ e2 :: rest2) tgw cidr
      = (cvr_loop env2 tgw cidr pre2).1 ++ (cvr_loop env2 tgw cidr [e2]).1 := by
  constructor
  · unfold create_transit_gateways
    have h1 : pre ++ e :: rest = pre ++ ([e] ++ rest) := rfl
    rw [h1, ctg_loop_append env1 tgw, ctg_loop_append env1 tgw, hpre, hfail]
    simp [hpre, hfail]
  · unfold create_vpc_route_to_tgw
    have h2 : pre2 ++ e2 :: rest2 = pre2 ++ ([e2] ++ rest2) := rfl
    rw [h2, cvr_loop_append env2 tgw cidr, cvr_loop_append env2 tgw cidr, hpre2, hfail2]
    simp [hpre2, hfail2]

/-- C3 witness: a successful first entry, a failing second entry and a
third entry; in both loops the trace is the first entry's calls then
the second entry's calls, with nothing for the third. -/
theorem C3_witness :
    create_transit_gateways envA2 ([mdE1] ++ mdE2 :: [mdE3]) "tgw-1"
      = (ctg_loop envA2 "tgw-1" [mdE1]).1 ++ (ctg_loop envA2 "tgw-1" [mdE2]).1
    ∧ create_vpc_route_to_tgw envB2 ([mdE1] ++ mdE2 :: [mdE3]) "tgw-1" ["10.0.0.0/16"]
      = (cvr_loop envB2 "tgw-1" ["10.0.0.0/16"] [mdE1]).1
        ++ (cvr_loop envB2 "tgw-1" ["10.0.0.0/16"] [mdE2]).1 :=
  C3_failure_aborts_subsequent_entries envA2 envB2 "tgw-1" [mdE1] [mdE3] mdE2
    (by decide) (by decide) ["10.0.0.0/16"] [mdE1] [mdE3] mdE2
    (by decide) (by decide)

/-- The subnet-id loop of get_subnets never calls describe_vpcs. -/
theorem get_subnets_loop_no_dvpcs (env : Env) (sids : List String) :
    ∀ acc, Call.describeVpcs ∉ (get_subnets_loop env sids acc).1 := by
  induction sids with
  | nil => intro acc; simp [get_subnets_loop]
  | cons sid rest ih =>
    intro acc
    simp only [get_subnets_loop]
    cases h : env.describeSubnetById sid with
    | error e => simp
    | ok subs => simp [ih]

/-- get_subnets never calls describe_vpcs. -/
theorem get_subnets_no_dvpcs (env : Env) (vpc tagv : String) :
    Call.describeVpcs ∉ (get_subnets env vpc tagv).1 := by
  simp only [get_subnets]
  cases h : env.describeSubnetsByVpc vpc tagv with
  | error e => simp
  | ok entries => simp [get_subnets_loop_no_dvpcs]

/-- The block loop of get_default_route_table never calls
describe_vpcs. -/
theorem gdrt_blocks_no_dvpcs (env : Env) (cidr : List String) (d : PyVal) (rtbId : String) :
    ∀ blocks, Call.describeVpcs ∉ (gdrt_blocks env cidr d rtbId blocks).1 := by
  intro blocks
  induction blocks with
  | nil => simp [gdrt_blocks]
  | cons block rest ih =>
    simp only [gdrt_blocks]
    by_cases hg : d = PyVal.strList cidr
    · rw [if_pos hg]
      cases h : env.deleteRoute (PyVal.str block) rtbId with
      | error e => simp
      | ok u => simp [ih]
    · rw [if_neg hg]; exact ih

/-- The route loop of get_default_route_table never calls
describe_vpcs. -/
theorem gdrt_routes_no_dvpcs (env : Env) (cidr : List String) (rtbId : String) :
    ∀ routes, Call.describeVpcs ∉ (gdrt_routes env cidr rtbId routes).1 := by
  intro routes
  induction routes with
  | nil => simp [gdrt_routes]
  | cons route rest ih =>
    simp only [gdrt_routes]
    cases hd : route.dest with
    | none => exact ih
    | some d =>
      by_cases hb : (gdrt_blocks env cidr d rtbId cidr).2
      · simp [hb, gdrt_blocks_no_dvpcs, ih]
      · simp [hb, gdrt_blocks_no_dvpcs]

/-- The table loop of get_default_route_table never calls
describe_vpcs. -/
theorem gdrt_tables_no_dvpcs (env : Env) (cidr : List String) :
    ∀ rtbs, Call.describeVpcs ∉ (gdrt_tables env cidr rtbs).1 := by
  intro rtbs
  induction rtbs with
  | nil => simp [gdrt_tables]
  | cons rtb rest ih =>
    simp only [gdrt_tables]
    cases h : env.describeRouteTablesByIds [rtb] with
    | error e => simp
    | ok rts =>
      cases rts with
      | nil => simp
      | cons first more =>
        by_cases hr : (gdrt_routes env cidr rtb first.routes).2
        · simp [hr, gdrt_routes_no_dvpcs, ih]
        · simp [hr, gdrt_routes_no_dvpcs]

/-- get_default_route_table never calls describe_vpcs. -/
theorem gdrt_no_dvpcs (env : Env) (vpc : String) (cidr : List String) (tagv : String) :
    Call.describeVpcs ∉ (get_default_route_table env vpc cidr tagv).1 := by
  simp only [get_default_route_table]
  cases h : env.describeRouteTablesByVpc vpc tagv with
  | error e => simp
  | ok rts => simp [gdrt_tables_no_dvpcs]

/-- The tag-value loop of get_vpc_metadata never calls describe_vpcs,
and yields one record per matching tag value. -/
theorem gvm_vpc_tags_no_dvpcs (env : Env) (cidr : List String) (tag vpcId : String) :
    ∀ tvs, Call.describeVpcs ∉ (gvm_vpc_tags env cidr tag vpcId tvs).1 := by
  intro tvs
  induction tvs with
  | nil => simp [gvm_vpc_tags]
  | cons tv rest ih =>
    simp only [gvm_vpc_tags]
    by_cases h : tv == tag
    · simp [h, get_subnets_no_dvpcs, gdrt_no_dvpcs, ih]
    · simp [h, ih]

/-- The VPC loop of get_vpc_metadata never calls describe_vpcs. -/
theorem gvm_vpcs_no_dvpcs (env : Env) (cidr : List String) (tag : String) :
    ∀ vpcs, Call.describeVpcs ∉ (gvm_vpcs env cidr tag vpcs).1 := by
  intro vpcs
  induction vpcs with
  | nil => simp [gvm_vpcs]
  | cons vpc rest ih =>
    simp only [gvm_vpcs]
    simp [gvm_vpc_tags_no_dvpcs, ih]

/-- One record is appended per tag value of the VPC equal to the
searched tag. -/
theorem gvm_vpc_tags_len (env : Env) (cidr : List String) (tag vpcId : String) :
    ∀ tvs, (gvm_vpc_tags env cidr tag vpcId tvs).2.length = tvs.count tag := by
  intro tvs
  induction tvs with
  | nil => simp [gvm_vpc_tags]
  | cons tv rest ih =>
    simp only [gvm_vpc_tags]
    by_cases h : tv == tag
    · simp [h, ih, List.count_cons]
    · simp [h, ih, List.count_cons]

/-- Record count over the VPC loop: the sum over VPCs of the number of
matching tag values of each. -/
theorem gvm_vpcs_len (env : Env) (cidr : List String) (tag : String) :
    ∀ vpcs, (gvm_vpcs env cidr tag vpcs).2.length
      = (vpcs.map (fun v => v.tags.count tag)).sum := by
  intro vpcs
  induction vpcs with
  | nil => simp [gvm_vpcs]
  | cons vpc rest ih =>
    simp [gvm_vpcs, gvm_vpc_tags_len, ih]

/-- The tag loop of get_vpc_metadata, when describe_vpcs answers
without raising: exactly one describe_vpcs call per tag, and one record
per pair of a tag and a matching tag value on a VPC. -/
theorem gvm_loop_spec (env : Env) (cidr : List String) (vpcs : List Vpc)
    (hok : env.describeVpcs = Except.ok vpcs) :
    ∀ tags, (gvm_loop env cidr tags).1.count Call.describeVpcs = tags.length
      ∧ ∃ l, (gvm_loop env cidr tags).2 = some l ∧
          l.length = (tags.map (fun tag => (vpcs.map (fun v => v.tags.count tag)).sum)).sum := by
  intro tags
  induction tags with
  | nil => simp [gvm_loop]
  | cons tag rest ih =>
    obtain ⟨ih1, l, ihl, ihlen⟩ := ih
    simp only [gvm_loop, hok]
    rw [ihl]
    refine ⟨?_, (gvm_vpcs env cidr tag vpcs).2 ++ l, ?_, ?_⟩
    · simp [List.count_cons, List.count_append, ih1,
        List.count_eq_zero.mpr (gvm_vpcs_no_dvpcs env cidr tag vpcs)]
    · rfl
    · simp [gvm_vpcs_len, ihlen, Nat.add_comm]

/-- C5 counterexample: the claim says at most one metadata record per
matching VPC.  A VPC carrying the same tag value twice yields two
records for the same VPC in one discovery run. -/
theorem C5_counterexample :
    (get_vpc_metadata env5 "acct" "reg" "a" ["10.0.0.0/16"]).2 =
      some [{ vpc := "vpc-1", subnet := some [], routeTables := some [] },
            { vpc := "vpc-1", subnet := some [], routeTables := some [] }] := by
  decide

/-- C5 amended: when describe_vpcs answers without raising, discovery
issues exactly one describe-VPCs call per parsed tag, and appends one
metadata record per pair of a parsed tag and a matching tag value on a
VPC: a VPC carrying several matching tag values, or matching several
parsed tags, yields that many records, not at most one. -/
theorem C5_describe_count_and_record_multiplicity (env : Env)
    (account region s : String) (cidr : List String) (vpcs : List Vpc)
    (hok : env.describeVpcs = Except.ok vpcs) :
    (get_vpc_metadata env account region s cidr).1.count Call.describeVpcs
        = (parse_vpc_tags s).length
    ∧ ∃ l, (get_vpc_metadata env account region s cidr).2 = some l ∧
        l.length = ((parse_vpc_tags s).map
          (fun tag => (vpcs.map (fun v => v.tags.count tag)).sum)).sum :=
  gvm_loop_spec env cidr vpcs hok (parse_vpc_tags s)

/-- C5 witness: the amended theorem on the doubly tagged VPC, where the
record count is two for a single tag. -/
theorem C5_witness :
    (get_vpc_metadata env5 "acct" "reg" "a" ["10.0.0.0/16"]).1.count Call.describeVpcs
        = (parse_vpc_tags "a").length
    ∧ ∃ l, (get_vpc_metadata env5 "acct" "reg" "a" ["10.0.0.0/16"]).2 = some l ∧
        l.length = ((parse_vpc_tags "a").map
          (fun tag => ([vpcTwice].map (fun v => v.tags.count tag)).sum)).sum :=
  C5_describe_count_and_record_multiplicity env5 "acct" "reg" "a" ["10.0.0.0/16"]
    [vpcTwice] rfl

/-- A string destination never equals the CIDR list, so the block loop
of get_default_route_table issues no call and completes. -/
theorem gdrt_blocks_str_dest (env : Env) (cidr : List String) (s rtbId : String) :
    ∀ blocks, gdrt_blocks env cidr (PyVal.str s) rtbId blocks = ([], true) := by
  intro blocks
  induction blocks with
  | nil => rfl
  | cons block rest ih =>
    simp only [gdrt_blocks]
    rw [if_neg (by simp)]
    exact ih

/-- When every present destination is a string, the route loop of
get_default_route_table issues no call and completes. -/
theorem gdrt_routes_str_dest (env : Env) (cidr : List String) (rtbId : String)
    (routes : List Route)
    (h : ∀ route ∈ routes, ∀ d, route.dest = some d → ∃ s, d = PyVal.str s) :
    gdrt_routes env cidr rtbId routes = ([], true) := by
  induction routes with
  | nil => rfl
  | cons route rest ih =>
    simp only [gdrt_routes]
    cases hd : route.dest with
    | none => exact ih (fun r hr => h r (List.mem_cons_of_mem _ hr))
    | some d =>
      obtain ⟨s, rfl⟩ := h route (List.mem_cons_self _ _) d hd
      simp [gdrt_blocks_str_dest, ih (fun r hr => h r (List.mem_cons_of_mem _ hr))]

/-- A string destination never equals the CIDR list, so the deletion
loop of create_vpc_route_to_tgw issues no call and completes when every
present destination is a string. -/
theorem cvr_deletes_str_dest (env : Env) (cidr : List String) (rtbId : String)
    (routes : List Route)
    (h : ∀ route ∈ routes, ∀ d, route.dest = some d → ∃ s, d = PyVal.str s) :
    cvr_deletes env cidr rtbId routes = ([], true) := by
  induction routes with
  | nil => rfl
  | cons route rest ih =>
    simp only [cvr_deletes]
    cases hd : route.dest with
    | none => exact ih (fun r hr => h r (List.mem_cons_of_mem _ hr))
    | some d =>
      obtain ⟨s, rfl⟩ := h route (List.mem_cons_self _ _) d hd
      simp [ih (fun r hr => h r (List.mem_cons_of_mem _ hr))]

/-- The creation loop only issues createRoute calls. -/
theorem cvr_creates_no_delete (env : Env) (rtbId tgw : String) :
    ∀ blocks, ((cvr_creates env rtbId tgw blocks).1).countP isDeleteRouteCall = 0 := by
  intro blocks
  induction blocks with
  | nil => simp [cvr_creates]
  | cons block rest ih =>
    simp only [cvr_creates]
    cases h : env.createRoute rtbId block tgw with
    | error e => simp [isDeleteRouteCall]
    | ok u => simp [List.countP_cons, isDeleteRouteCall, ih]

/-- When every destination of the given tables is a string, the table
loop of create_vpc_route_to_tgw issues no deleteRoute call. -/
theorem cvr_tables_no_delete (env : Env) (cidr : List String) (tgw : String)
    (rts : List RouteTable)
    (hstr : ∀ rt ∈ rts, ∀ route ∈ rt.routes, ∀ d, route.dest = some d →
      ∃ s, d = PyVal.str s) :
    ((cvr_tables env cidr tgw rts).1).countP isDeleteRouteCall = 0 := by
  induction rts with
  | nil => simp [cvr_tables]
  | cons rt rest ih =>
    simp only [cvr_tables]
    rw [cvr_deletes_str_dest env cidr rt.routeTableId rt.routes
      (hstr rt (List.mem_cons_self _ _))]
    by_cases hc : (cvr_creates env rt.routeTableId tgw cidr).2
    · simp [hc, List.countP_append, cvr_creates_no_delete,
        ih (fun r hr => hstr r (List.mem_cons_of_mem _ hr))]
    · simp [hc, List.countP_append, cvr_creates_no_delete]

/-- When every destination the environment reports for a described
route table is a string, the entry loop of create_vpc_route_to_tgw
issues no deleteRoute call. -/
theorem cvr_loop_no_delete (env : Env)
    (H1 : ∀ ids rts, env.describeRouteTablesByIds ids = Except.ok rts →
      ∀ rt ∈ rts, ∀ route ∈ rt.routes, ∀ d, route.dest = some d → ∃ s, d = PyVal.str s)
    (tgw : String) (cidr : List String) :
    ∀ metadata, ((cvr_loop env tgw cidr metadata).1).countP isDeleteRouteCall = 0 := by
  intro metadata
  induction metadata with
  | nil => simp [cvr_loop]
  | cons e rest ih =>
    simp only [cvr_loop]
    cases hs : e.subnet with
    | none => exact ih
    | some sl =>
      cases sl with
      | nil => exact ih
      | cons s ss =>
        dsimp only
        cases hrt : e.routeTables with
        | none => simp
        | some ids =>
          dsimp only
          cases h : env.describeRouteTablesByIds ids with
          | error err => simp [List.countP_cons, isDeleteRouteCall]
          | ok rts =>
            dsimp only
            have htab := cvr_tables_no_delete env cidr tgw rts (H1 ids rts h)
            by_cases hb : (cvr_tables env cidr tgw rts).2
            · simp [hb, List.countP_cons, List.countP_append, isDeleteRouteCall, htab, ih]
            · simp [hb, List.countP_cons, List.countP_append, isDeleteRouteCall, htab]

/-- When every destination the environment reports for a described
route table is a string, the table loop of get_default_route_table
issues no deleteRoute call. -/
theorem gdrt_tables_no_delete (env : Env)
    (H1 : ∀ ids rts, env.describeRouteTablesByIds ids = Except.ok rts →
      ∀ rt ∈ rts, ∀ route ∈ rt.routes, ∀ d, route.dest = some d → ∃ s, d = PyVal.str s)
    (cidr : List String) :
    ∀ rtbs, ((gdrt_tables env cidr rtbs).1).countP isDeleteRouteCall = 0 := by
  intro rtbs
  induction rtbs with
  | nil => simp [gdrt_tables]
  | cons rtb rest ih =>
    simp only [gdrt_tables]
    cases h : env.describeRouteTablesByIds [rtb] with
    | error err => simp [List.countP_cons, isDeleteRouteCall]
    | ok rts =>
      dsimp only
      cases rts with
      | nil => simp [List.countP_cons, isDeleteRouteCall]
      | cons first more =>
        dsimp only
        have hroutes := gdrt_routes_str_dest env cidr rtb first.routes
          (fun route hroute d hd =>
            H1 [rtb] (first :: more) h first (List.mem_cons_self _ _) route hroute d hd)
        simp [hroutes, List.countP_cons, isDeleteRouteCall, ih]

/-- C4: the deletion guard compares a string route destination with the
CIDR list, which is never equal, so delete_route is unreachable in both
create_vpc_route_to_tgw and get_default_route_table: when every
destination the environment reports is a string, neither trace holds a
deleteRoute call. -/
theorem C4_delete_route_unreachable (env : Env)
    (H1 : ∀ ids rts, env.describeRouteTablesByIds ids = Except.ok rts →
      ∀ rt ∈ rts, ∀ route ∈ rt.routes, ∀ d, route.dest = some d → ∃ s, d = PyVal.str s)
    (metadata : List Metadata) (tgw : String) (cidr : List String) (vpc tagv : String) :
    ((create_vpc_route_to_tgw env metadata tgw cidr).countP isDeleteRouteCall = 0)
    ∧ (((get_default_route_table env vpc cidr tagv).1).countP isDeleteRouteCall = 0) := by
  constructor
  · exact cvr_loop_no_delete env H1 tgw cidr metadata
  · simp only [get_default_route_table]
    cases h : env.describeRouteTablesByVpc vpc tagv with
    | error err => simp [isDeleteRouteCall]
    | ok rts => simp [List.countP_cons, isDeleteRouteCall, gdrt_tables_no_delete env H1 cidr]

/-- C4 witness: a concrete environment whose described tables carry one
string-destination route each. -/
theorem C4_witness :
    ((create_vpc_route_to_tgw env7 md7 "tgw-1" ["10.0.0.0/16"]).countP isDeleteRouteCall = 0)
    ∧ (((get_default_route_table env7 "vpc-1" ["10.0.0.0/16"] "True").1).countP
        isDeleteRouteCall = 0) :=
  C4_delete_route_unreachable env7 (by
    intro ids rts h rt hrt route hroute d hd
    simp only [env7, baseEnv] at h
    rw [Except.ok.injEq] at h
    subst h
    simp only [List.mem_map] at hrt
    obtain ⟨i, hi, rfl⟩ := hrt
    simp only [List.mem_singleton] at hroute
    subst hroute
    simp only [Option.some.injEq] at hd
    exact ⟨"0.0.0.0/0", hd.symm⟩) md7 "tgw-1" ["10.0.0.0/16"] "vpc-1" "True"

/-- Splitting a space-free character list yields space-free pieces. -/
theorem splitCommaAux_no_space (cs : List Char) :
    ∀ acc, (∀ c ∈ cs, c ≠ spaceChar) → (∀ c ∈ acc, c ≠ spaceChar) →
      ∀ piece ∈ splitCommaAux cs acc, ∀ c ∈ piece, c ≠ spaceChar := by
  induction cs with
  | nil =>
    intro acc hcs hacc piece hp c hc
    simp only [splitCommaAux, List.mem_singleton] at hp
    subst hp
    exact hacc c (List.mem_reverse.mp hc)
  | cons ch rest ih =>
    intro acc hcs hacc piece hp c hc
    simp only [splitCommaAux] at hp
    by_cases hch : ch = ','
    · rw [if_pos hch] at hp
      rcases List.mem_cons.mp hp with hp | hp
      · subst hp
        exact hacc c (List.mem_reverse.mp hc)
      · exact ih [] (fun x hx => hcs x (List.mem_cons_of_mem _ hx)) (by simp) piece hp c hc
    · rw [if_neg hch] at hp
      refine ih (ch :: acc) (fun x hx => hcs x (List.mem_cons_of_mem _ hx)) ?_ piece hp c hc
      intro x hx
      rcases List.mem_cons.mp hx with hx | hx
      · subst hx; exact hcs x (List.mem_cons_self _ _)
      · exact hacc x hx

/-- Every parsed tag is free of space characters: the replace of line
131 runs before the split of line 132. -/
theorem parse_vpc_tags_no_space (s : String) :
    ∀ t ∈ parse_vpc_tags s, ∀ c ∈ t.data, c ≠ spaceChar := by
  intro t ht c hc
  simp only [parse_vpc_tags, pySplitComma, List.mem_map] at ht
  obtain ⟨piece, hp, rfl⟩ := ht
  have hchars : ∀ x ∈ (removeSpaces s).data, x ≠ spaceChar := by
    intro x hx
    have hx2 : x ∈ s.data.filter (fun c => c != spaceChar) := hx
    exact bne_iff_ne.mp (List.mem_filter.mp hx2).2
  exact splitCommaAux_no_space (removeSpaces s).data [] hchars (by simp) piece hp c hc

/-- When no tag value of the VPC equals the searched tag, the tag-value
loop of get_vpc_metadata appends nothing and issues no call. -/
theorem gvm_vpc_tags_no_match (env : Env) (cidr : List String) (tag vpcId : String)
    (tvs : List String) (h : ∀ tv ∈ tvs, tv ≠ tag) :
    gvm_vpc_tags env cidr tag vpcId tvs = ([], []) := by
  induction tvs with
  | nil => rfl
  | cons tv rest ih =>
    simp only [gvm_vpc_tags]
    simp [beq_eq_false_iff_ne.mpr (h tv (List.mem_cons_self _ _)),
      ih (fun x hx => h x (List.mem_cons_of_mem _ hx))]

/-- When no tag value of any VPC equals the searched tag, the VPC loop
of get_vpc_metadata appends nothing and issues no call. -/
theorem gvm_vpcs_no_match (env : Env) (cidr : List String) (tag : String)
    (vpcs : List Vpc) (h : ∀ vpc ∈ vpcs, ∀ tv ∈ vpc.tags, tv ≠ tag) :
    gvm_vpcs env cidr tag vpcs = ([], []) := by
  induction vpcs with
  | nil => rfl
  | cons vpc rest ih =>
    simp only [gvm_vpcs]
    simp [gvm_vpc_tags_no_match env cidr tag vpc.vpcId vpc.tags
        (h vpc (List.mem_cons_self _ _)),
      ih (fun x hx => h x (List.mem_cons_of_mem _ hx))]

/-- When no tag value of any VPC equals any searched tag, discovery
returns the empty record list. -/
theorem gvm_loop_no_match (env : Env) (cidr : List String) (vpcs : List Vpc)
    (hok : env.describeVpcs = Except.ok vpcs) (tags : List String)
    (h : ∀ tag ∈ tags, ∀ vpc ∈ vpcs, ∀ tv ∈ vpc.tags, tv ≠ tag) :
    (gvm_loop env cidr tags).2 = some [] := by
  induction tags with
  | nil => rfl
  | cons tag rest ih =>
    have h1 := gvm_vpcs_no_match env cidr tag vpcs
      (fun vpc hv tv htv => h tag (List.mem_cons_self _ _) vpc hv tv htv)
    have h2 := ih (fun t ht => h t (List.mem_cons_of_mem _ ht))
    simp [gvm_loop, hok, h1, h2]

/-- C10: get_vpc_metadata removes every space character from the whole
Vpc_Tags parameter before splitting on commas, so every parsed tag is
space-free, a tag value containing a space never occurs among the
parsed tags, and a VPC whose tag values all contain a space yields no
metadata record. -/
theorem C10_space_stripping_prevents_match (s v : String) (env : Env)
    (account region : String) (cidr : List String) (vpcs : List Vpc)
    (hv : spaceChar ∈ v.data)
    (hok : env.describeVpcs = Except.ok vpcs)
    (hall : ∀ vpc ∈ vpcs, ∀ t ∈ vpc.tags, spaceChar ∈ t.data) :
    (parse_vpc_tags s).all (fun t => t.data.all (fun c => c != spaceChar)) = true
    ∧ v ∉ parse_vpc_tags s
    ∧ (get_vpc_metadata env account region s cidr).2 = some [] := by
  refine ⟨?_, ?_, ?_⟩
  · rw [List.all_eq_true]
    intro t ht
    rw [List.all_eq_true]
    intro c hc
    exact bne_iff_ne.mpr (parse_vpc_tags_no_space s t ht c hc)
  · intro hmem
    exact parse_vpc_tags_no_space s v hmem spaceChar hv rfl
  · exact gvm_loop_no_match env cidr vpcs hok (parse_vpc_tags s)
      (fun tag htag vpc hvpc tv htv heq =>
        parse_vpc_tags_no_space s tag htag spaceChar (heq ▸ hall vpc hvpc tv htv) rfl)

/-- C10 witness: a parameter with a spaced tag and a VPC tagged with a
spaced value. -/
theorem C10_witness :
    (parse_vpc_tags "a b,c").all (fun t => t.data.all (fun c => c != spaceChar)) = true
    ∧ "a b" ∉ parse_vpc_tags "a b,c"
    ∧ (get_vpc_metadata env10 "acct" "reg" "a b,c" ["10.0.0.0/16"]).2 = some [] :=
  C10_space_stripping_prevents_match "a b,c" "a b" env10 "acct" "reg" ["10.0.0.0/16"]
    [{ vpcId := "vpc-1", tags := ["x y"] }] (by decide) rfl (by decide)

/-- The subnet-id loop equals a single fold of az_step over the
flattened per-id describe responses, when it completes. -/
theorem get_subnets_loop_fusion (env : Env) :
    ∀ (sids : List String) (acc m : List (String × String)),
      (get_subnets_loop env sids acc).2 = some m →
      m = List.foldl az_step acc (seen_subnets env sids) := by
  intro sids
  induction sids with
  | nil =>
    intro acc m h
    simp only [get_subnets_loop, Option.some.injEq] at h
    simp [seen_subnets, ← h]
  | cons sid rest ih =>
    intro acc m h
    simp only [get_subnets_loop] at h
    cases hd : env.describeSubnetById sid with
    | error e => rw [hd] at h; cases h
    | ok subs =>
      rw [hd] at h
      dsimp at h
      rw [ih (List.foldl az_step acc subs) m h]
      simp [seen_subnets, hd, okSubnets, List.foldl_append]

/-- Folding az_step preserves distinctness of the zone keys. -/
theorem az_step_foldl_nodup (seen : List Subnet) :
    ∀ acc : List (String × String), (acc.map Prod.fst).Nodup →
      ((List.foldl az_step acc seen).map Prod.fst).Nodup := by
  induction seen with
  | nil => intro acc h; exact h
  | cons sub rest ih =>
    intro acc h
    rw [List.foldl_cons]
    apply ih
    unfold az_step
    by_cases hm : acc.any (fun p => p.1 == sub.az)
    · rw [if_pos hm]; exact h
    · rw [if_neg hm]
      rw [List.map_append]
      simp only [List.map_cons, List.map_nil]
      rw [List.nodup_append]
      refine ⟨h, List.nodup_singleton _, ?_⟩
      intro a ha hb
      rw [List.mem_singleton] at hb
      subst hb
      apply hm
      rw [List.any_eq_true]
      obtain ⟨p, hp, hfst⟩ := List.mem_map.mp ha
      exact ⟨p, hp, by rw [beq_iff_eq]; exact hfst⟩

/-- Every pair of the fold result that is not in the accumulator pairs
a zone with the id of the first subnet of the walked records that lies
in that zone. -/
theorem az_step_foldl_first (seen : List Subnet) :
    ∀ (acc : List (String × String)) (p : String × String),
      p ∈ List.foldl az_step acc seen →
      p ∈ acc ∨ (acc.any (fun q => q.1 == p.1) = false ∧ firstAz seen p.1 = some p.2) := by
  induction seen with
  | nil => intro acc p hp; exact Or.inl hp
  | cons sub rest ih =>
    intro acc p hp
    rw [List.foldl_cons] at hp
    rcases ih (az_step acc sub) p hp with h1 | ⟨hany, hfirst⟩
    · unfold az_step at h1
      by_cases hm : acc.any (fun q => q.1 == sub.az)
      · rw [if_pos hm] at h1; exact Or.inl h1
      · rw [if_neg hm] at h1
        rcases List.mem_append.mp h1 with h1 | h1
        · exact Or.inl h1
        · rw [List.mem_singleton] at h1
          subst h1
          refine Or.inr ⟨?_, ?_⟩
          · simp only [Bool.not_eq_true] at hm
            exact hm
          · unfold firstAz
            rw [List.find?_cons_of_pos _ (by simp)]
            rfl
    · have hsub_ne : sub.az ≠ p.1 := by
        intro he
        unfold az_step at hany
        by_cases hm : acc.any (fun q => q.1 == sub.az)
        · rw [if_pos hm] at hany
          rw [List.any_eq_true] at hm
          obtain ⟨q, hq, hqz⟩ := hm
          have hq2 : acc.any (fun q => q.1 == p.1) = true := by
            rw [List.any_eq_true]
            refine ⟨q, hq, ?_⟩
            rw [beq_iff_eq] at hqz ⊢
            rw [hqz, he]
          rw [hq2] at hany
          cases hany
        · rw [if_neg hm] at hany
          have hq2 : (acc ++ [(sub.az, sub.subnetId)]).any (fun q => q.1 == p.1) = true := by
            rw [List.any_eq_true]
            refine ⟨(sub.az, sub.subnetId), by simp, ?_⟩
            rw [beq_iff_eq]
            exact he
          rw [hq2] at hany
          cases hany
      refine Or.inr ⟨?_, ?_⟩
      · unfold az_step at hany
        by_cases hm : acc.any (fun q => q.1 == sub.az)
        · rwa [if_pos hm] at hany
        · rw [if_neg hm, List.any_append] at hany
          exact (Bool.or_eq_false_iff.mp hany).1
      · unfold firstAz at hfirst ⊢
        rw [List.find?_cons_of_neg _ (by simp [hsub_ne])]
        exact hfirst

/-- C6: when get_subnets returns a list, it is the value column of the
zone mapping folded over the walked subnet records: its zones are
pairwise distinct (at most one subnet per availability zone) and each
zone is paired with the first subnet of the providers listing order
that lies in it. -/
theorem C6_subnet_dedup_first_seen (env : Env) (vpc tagv : String)
    (tr : List Call) (subnets : List String) (entries : List Subnet)
    (hok : env.describeSubnetsByVpc vpc tagv = Except.ok entries)
    (hres : get_subnets env vpc tagv = (tr, some subnets)) :
    subnets = (selected_mapping env entries).map Prod.snd
    ∧ ((selected_mapping env entries).map Prod.fst).Nodup
    ∧ (selected_mapping env entries).all
        (fun p => firstAz (seen_subnets env (entries.map Subnet.subnetId)) p.1 == some p.2)
          = true := by
  simp only [get_subnets, hok] at hres
  have h2 := congrArg Prod.snd hres
  dsimp at h2
  obtain ⟨m, hm, hsub⟩ := Option.map_eq_some'.mp h2
  have hfus := get_subnets_loop_fusion env (entries.map Subnet.subnetId) [] m hm
  refine ⟨?_, ?_, ?_⟩
  · rw [← hsub, hfus]; rfl
  · exact az_step_foldl_nodup _ [] (by simp)
  · rw [List.all_eq_true]
    intro p hp
    unfold selected_mapping at hp
    rcases az_step_foldl_first (seen_subnets env (entries.map Subnet.subnetId)) [] p hp
      with h | ⟨_, hfirst⟩
    · cases h
    · rw [beq_iff_eq]
      exact hfirst

/-- C6 witness: three subnets, the first two sharing a zone; the first
is selected for the shared zone. -/
theorem C6_witness :
    ["s1", "s3"] = (selected_mapping env6 subs6).map Prod.snd
    ∧ ((selected_mapping env6 subs6).map Prod.fst).Nodup
    ∧ (selected_mapping env6 subs6).all
        (fun p => firstAz (seen_subnets env6 (subs6.map Subnet.subnetId)) p.1 == some p.2)
          = true :=
  C6_subnet_dedup_first_seen env6 "vpc-1" "True"
    [Call.describeSubnetsByVpc "vpc-1" "True", Call.describeSubnetById "s1",
     Call.describeSubnetById "s2", Call.describeSubnetById "s3"]
    ["s1", "s3"] subs6 rfl (by decide)

/-- The deletion loop issues no createRoute call, so it contributes
nothing to the createRoute calls of a table. -/
theorem cvr_deletes_no_create (env : Env) (cidr : List String) (rtbId rtId : String) :
    ∀ routes, createRouteCallsFor rtId ((cvr_deletes env cidr rtbId routes).1) = [] := by
  intro routes
  induction routes with
  | nil => rfl
  | cons route rest ih =>
    simp only [cvr_deletes]
    cases hd : route.dest with
    | none => exact ih
    | some d =>
      dsimp only
      by_cases hg : d = PyVal.strList cidr
      · rw [if_pos hg]
        cases h : env.deleteRoute (PyVal.strList cidr) rtbId with
        | error e => rfl
        | ok u => simpa [createRouteCallsFor, List.filter_cons, isCreateRouteFor] using ih
      · rw [if_neg hg]
        exact ih

/-- The deletion loop completes when the delete call never raises. -/
theorem cvr_deletes_complete (env : Env) (cidr : List String) (rtbId : String)
    (HDel : ∀ d r, env.deleteRoute d r = Except.ok ()) :
    ∀ routes, ((cvr_deletes env cidr rtbId routes).2) = true := by
  intro routes
  induction routes with
  | nil => rfl
  | cons route rest ih =>
    simp only [cvr_deletes]
    cases hd : route.dest with
    | none => exact ih
    | some d =>
      dsimp only
      by_cases hg : d = PyVal.strList cidr
      · rw [if_pos hg, HDel]
        exact ih
      · rw [if_neg hg]
        exact ih

/-- When create_route never raises, the creation loop issues one call
per block, in order, and completes. -/
theorem cvr_creates_ok (env : Env) (rtbId tgw : String)
    (HC : ∀ r b t, env.createRoute r b t = Except.ok ()) :
    ∀ blocks, cvr_creates env rtbId tgw blocks
      = (blocks.map (fun b => Call.createRoute rtbId b tgw), true) := by
  intro blocks
  induction blocks with
  | nil => rfl
  | cons block rest ih =>
    simp [cvr_creates, HC rtbId block tgw, ih]

/-- Filtering the creation calls of one table for a target id keeps all
of them or none, by the id match. -/
theorem createRouteCallsFor_creates (rtId rtbId tgw : String) (blocks : List String) :
    createRouteCallsFor rtId (blocks.map (fun b => Call.createRoute rtbId b tgw))
      = if rtbId == rtId then blocks.map (fun b => Call.createRoute rtbId b tgw) else [] := by
  by_cases h : rtbId == rtId
  · rw [if_pos h]
    unfold createRouteCallsFor
    apply List.filter_eq_self.mpr
    intro a ha
    obtain ⟨b, hb, rfl⟩ := List.mem_map.mp ha
    simpa [isCreateRouteFor] using h
  · rw [if_neg h]
    unfold createRouteCallsFor
    rw [List.filter_eq_nil_iff]
    intro a ha
    obtain ⟨b, hb, rfl⟩ := List.mem_map.mp ha
    simp [isCreateRouteFor, h]

/-- The per-table call bookkeeping distributes over appended table
lists. -/
theorem table_route_calls_append (rtId tgw : String) (cidr : List String)
    (l1 l2 : List RouteTable) :
    table_route_calls rtId tgw cidr (l1 ++ l2)
      = table_route_calls rtId tgw cidr l1 ++ table_route_calls rtId tgw cidr l2 := by
  simp [table_route_calls]

/-- The per-table call bookkeeping on a cons. -/
theorem table_route_calls_cons (rtId tgw : String) (cidr : List String)
    (rt : RouteTable) (rest : List RouteTable) :
    table_route_calls rtId tgw cidr (rt :: rest)
      = (if rt.routeTableId == rtId
          then cidr.map (fun b => Call.createRoute rt.routeTableId b tgw) else [])
        ++ table_route_calls rtId tgw cidr rest := by
  simp [table_route_calls]

/-- A table list with no occurrence of the target id contributes no
createRoute call for it. -/
theorem table_route_calls_no_match (rtId tgw : String) (cidr : List String) :
    ∀ l : List RouteTable, (∀ rt ∈ l, rt.routeTableId ≠ rtId) →
      table_route_calls rtId tgw cidr l = [] := by
  intro l
  induction l with
  | nil => intro h; rfl
  | cons rt rest ih =>
    intro h
    have hne : (rt.routeTableId == rtId) = false :=
      beq_eq_false_iff_ne.mpr (h rt (List.mem_cons_self _ _))
    simp only [table_route_calls, List.map_cons, List.flatten_cons, hne,
      Bool.false_eq_true, if_false, List.nil_append]
    have ih2 := ih (fun x hx => h x (List.mem_cons_of_mem _ hx))
    simpa [table_route_calls] using ih2

/-- When no provider call of the table loop raises, the loop completes
and its createRoute calls for any target id are exactly one call per
CIDR block, in order, per occurrence of the id among the tables. -/
theorem cvr_tables_ok (env : Env) (cidr : List String) (tgw : String)
    (HC : ∀ r b t, env.createRoute r b t = Except.ok ())
    (HDel : ∀ d r, env.deleteRoute d r = Except.ok ()) :
    ∀ rts, ((cvr_tables env cidr tgw rts).2 = true)
      ∧ ∀ rtId, createRouteCallsFor rtId ((cvr_tables env cidr tgw rts).1)
          = table_route_calls rtId tgw cidr rts := by
  intro rts
  induction rts with
  | nil => exact ⟨rfl, fun rtId => rfl⟩
  | cons rt rest ih =>
    obtain ⟨ih2, ihf⟩ := ih
    have hdel2 := cvr_deletes_complete env cidr rt.routeTableId HDel rt.routes
    have hcr := cvr_creates_ok env rt.routeTableId tgw HC cidr
    constructor
    · simp [cvr_tables, hdel2, hcr, ih2]
    · intro rtId
      simp only [cvr_tables, hdel2, hcr, if_true]
      simp only [createRouteCallsFor, List.filter_append] at ihf ⊢
      have h1 := cvr_deletes_no_create env cidr rt.routeTableId rtId rt.routes
      unfold createRouteCallsFor at h1
      rw [h1]
      have h2 := createRouteCallsFor_creates rtId rt.routeTableId tgw cidr
      unfold createRouteCallsFor at h2
      rw [h2, ihf rtId]
      simp [table_route_calls]

/-- When no provider call raises and every entry with a truthy subnet
list carries a route-table list, the entry loop completes and its
createRoute calls for any target id are those of the walked tables. -/
theorem cvr_loop_ok (env : Env) (tgw : String) (cidr : List String)
    (HD : ∀ ids, ∃ rts, env.describeRouteTablesByIds ids = Except.ok rts)
    (HC : ∀ r b t, env.createRoute r b t = Except.ok ())
    (HDel : ∀ d r, env.deleteRoute d r = Except.ok ()) :
    ∀ metadata,
      (∀ e ∈ metadata, ∀ s ss, e.subnet = some (s :: ss) → ∃ ids, e.routeTables = some ids) →
      ((cvr_loop env tgw cidr metadata).2 = true)
      ∧ ∀ rtId, createRouteCallsFor rtId ((cvr_loop env tgw cidr metadata).1)
          = table_route_calls rtId tgw cidr (processed_tables env metadata) := by
  intro metadata
  induction metadata with
  | nil => exact fun _ => ⟨rfl, fun rtId => rfl⟩
  | cons e rest ih =>
    intro HR
    obtain ⟨ihr2, ihrf⟩ := ih (fun x hx => HR x (List.mem_cons_of_mem _ hx))
    simp only [cvr_loop]
    cases hs : e.subnet with
    | none =>
      refine ⟨ihr2, fun rtId => ?_⟩
      rw [ihrf rtId]
      simp [processed_tables, hs]
    | some sl =>
      cases sl with
      | nil =>
        refine ⟨ihr2, fun rtId => ?_⟩
        rw [ihrf rtId]
        simp [processed_tables, hs]
      | cons s ss =>
        dsimp only
        obtain ⟨ids, hids⟩ := HR e (List.mem_cons_self _ _) s ss hs
        rw [hids]
        dsimp only
        obtain ⟨rts, hrts⟩ := HD ids
        rw [hrts]
        dsimp only
        obtain ⟨ht2, htf⟩ := cvr_tables_ok env cidr tgw HC HDel rts
        rw [ht2]
        simp only [if_true]
        refine ⟨ihr2, fun rtId => ?_⟩
        have hproc : processed_tables env (e :: rest) = rts ++ processed_tables env rest := by
          simp [processed_tables, hs, hids, hrts, okTables]
        rw [hproc, table_route_calls_append]
        simp only [createRouteCallsFor] at htf ihrf ⊢
        rw [List.filter_append, List.filter_cons]
        have hd0 : isCreateRouteFor rtId (Call.describeRouteTablesByIds ids) = false := rfl
        rw [hd0]
        simp only [Bool.false_eq_true, if_false]
        rw [htf rtId, ihrf rtId]

/-- C7: with the claimed CIDR list of two blocks, when no provider call
raises, every entry with a truthy subnet carries its table ids, and the
target table occurs exactly once among the walked tables, route
reconciliation issues exactly two createRoute calls for that table, one
per CIDR entry in list order, each targeting the given transit
gateway. -/
theorem C7_two_create_routes_per_table (env : Env) (metadata : List Metadata)
    (tgw rtId : String) (pre post : List RouteTable) (rt0 : RouteTable)
    (HD : ∀ ids, ∃ rts, env.describeRouteTablesByIds ids = Except.ok rts)
    (HC : ∀ r b t, env.createRoute r b t = Except.ok ())
    (HDel : ∀ d r, env.deleteRoute d r = Except.ok ())
    (HR : ∀ e ∈ metadata, ∀ s ss, e.subnet = some (s :: ss) → ∃ ids, e.routeTables = some ids)
    (hsplit : processed_tables env metadata = pre ++ rt0 :: post)
    (hrt0 : rt0.routeTableId = rtId)
    (hpre : ∀ rt ∈ pre, rt.routeTableId ≠ rtId)
    (hpost : ∀ rt ∈ post, rt.routeTableId ≠ rtId) :
    createRouteCallsFor rtId
        (create_vpc_route_to_tgw env metadata tgw ["10.0.0.0/16", "192.168.1.0/24"])
      = [Call.createRoute rtId "10.0.0.0/16" tgw,
         Call.createRoute rtId "192.168.1.0/24" tgw] := by
  obtain ⟨hl2, hlf⟩ := cvr_loop_ok env tgw ["10.0.0.0/16", "192.168.1.0/24"]
    HD HC HDel metadata HR
  unfold create_vpc_route_to_tgw
  rw [hlf rtId, hsplit, table_route_calls_append,
    table_route_calls_no_match rtId tgw _ pre hpre, List.nil_append,
    table_route_calls_cons, hrt0,
    table_route_calls_no_match rtId tgw _ post hpost]
  simp

/-- C7 witness: one entry whose single table is walked once; the filter
keeps exactly the two ordered createRoute calls. -/
theorem C7_witness :
    createRouteCallsFor "rtb-1"
        (create_vpc_route_to_tgw env7 md7 "tgw-1" ["10.0.0.0/16", "192.168.1.0/24"])
      = [Call.createRoute "rtb-1" "10.0.0.0/16" "tgw-1",
         Call.createRoute "rtb-1" "192.168.1.0/24" "tgw-1"] :=
  C7_two_create_routes_per_table env7 md7 "tgw-1" "rtb-1" [] [] rt7
    (fun ids => ⟨_, rfl⟩)
    (fun _ _ _ => rfl)
    (fun _ _ => rfl)
    (by
      intro e he s ss hs
      simp only [md7, List.mem_singleton] at he
      subst he
      exact ⟨["rtb-1"], rfl⟩)
    (by decide)
    rfl
    (by intro rt h; cases h)
    (by intro rt h; cases h)

end TgwAtt
